import Mathlib

/-!
Verification development for the ferrules PDF-parsing pipeline.

Shallow embedding of the core data model and operations of the
`ferrules` repository (crates `ferrules-core`, `ferrules`, `ferrules-cli`),
with theorems settling the frozen specification claims.

Conventions:
* Rust `Vec<T>` becomes `List T`; `Option<T>` becomes `Option T`.
* Fallible Rust code (`anyhow::Result`) is embedded with explicit outcome
  types; a reachable `todo!()` or a panicking `.expect(..)` is embedded as a
  distinguished `panic`-style constructor, never silently dropped.
* `f32` page coordinates are embedded as `Int`; none of the verified claims
  depends on floating-point rounding.
-/

namespace Ferrules

/-- Modelled from the spec (the source file `entities.rs` is not part of the
provided sources): axis-aligned bounding box with four scalar coordinates
`x0, y0, x1, y1`; `merge` is the smallest enclosing rectangle.  Coordinates
are embedded as `Int` in place of the source's `f32`. -/
structure BBox where
  x0 : Int
  y0 : Int
  x1 : Int
  y1 : Int
deriving Repr, DecidableEq

/-- Modelled from the spec: `BBox::merge` replaces the box by the smallest
rectangle enclosing both boxes. -/
def BBox.merge (b : BBox) (o : BBox) : BBox :=
  { x0 := min b.x0 o.x0
    y0 := min b.y0 o.y0
    x1 := max b.x1 o.x1
    y1 := max b.y1 o.y1 }

/-- Modelled from the spec (source `entities.rs` absent): the `ElementType`
enum of element kinds produced by page fusion. -/
inductive ElementType where
  | Text
  | ListItem
  | Header
  | Footer
  | Title
  | Subtitle
  | Caption
  | Image
  | Table
deriving Repr, DecidableEq

/-- Modelled from the spec (source `entities.rs` absent): the text payload of
an element; only the `text` field is needed by `Block::merge`. -/
structure TextBlockData where
  text : String
deriving Repr, DecidableEq

/-- Modelled from the spec (source `entities.rs` absent): an `Element`, the
atomic output of page fusion.  Fields restricted to those read by the
operations under verification (`id`, `page_id`, `kind`, `bbox`,
`text_block`). -/
structure Element where
  id : Nat
  page_id : Nat
  kind : ElementType
  bbox : BBox
  text_block : TextBlockData
deriving Repr, DecidableEq

/-- Embedded from `blocks.rs`: `ImageBlock { id, caption }`. -/
structure ImageBlock where
  id : Nat
  caption : Option String
deriving Repr, DecidableEq

/-- Embedded from `blocks.rs`: `ImageBlock::path`, the derived image path
`format!("img_{}.png", self.id)`. -/
def ImageBlock.path (b : ImageBlock) : String :=
  "img_" ++ toString b.id ++ ".png"

/-- Embedded from `blocks.rs`: `TextBlock { text }`. -/
structure TextBlock where
  text : String
deriving Repr, DecidableEq

/-- Embedded from `blocks.rs`: `List { items }` (list-block payload). -/
structure ListPayload where
  items : List String
deriving Repr, DecidableEq

/-- Embedded from `blocks.rs`: `Title { level, text }`. -/
structure Title where
  level : Nat
  text : String
deriving Repr, DecidableEq

/-- Embedded from `blocks.rs`: the `BlockType` enum. -/
inductive BlockType where
  | Header (t : TextBlock)
  | Footer (t : TextBlock)
  | Title (t : Title)
  | ListBlock (l : ListPayload)
  | TextBlock (t : TextBlock)
  | Image (i : ImageBlock)
  | Table
deriving Repr, DecidableEq

/-- Embedded from `blocks.rs`: `Block { id, kind, pages_id, bbox }`. -/
structure Block where
  id : Nat
  kind : BlockType
  pages_id : List Nat
  bbox : BBox
deriving Repr, DecidableEq

/-- Outcome of `Block::merge`.  The source returns `anyhow::Result<()>` after
mutating the block in place; `bail` embeds the `bail!(msg)` arms and
`todoPanic` embeds the `todo!()` arms for `Title`, `Image` and `Table`
blocks, which panic rather than return. -/
inductive MergeResult where
  | ok (b : Block)
  | bail (msg : String)
  | todoPanic
deriving Repr, DecidableEq

/-- Embedded from `blocks.rs`, `Block::merge`.  Each match arm mirrors the
source: on a kind match the bbox is merged and the payload extended (the
source's `// add page_id` comment is not followed by any code, so `pages_id`
is left unchanged, exactly as in the source); on a kind mismatch the arm
bails with the source's message; the `Title`, `Image` and `Table` arms are
`todo!()`. -/
def Block.merge (b : Block) (element : Element) : MergeResult :=
  match b.kind with
  | BlockType.TextBlock text =>
      match element.kind with
      | ElementType.Text =>
          MergeResult.ok
            { b with
              bbox := b.bbox.merge element.bbox
              kind := BlockType.TextBlock
                ⟨text.text ++ "\n" ++ element.text_block.text⟩ }
      | _ => MergeResult.bail "can't merge element in textblock"
  | BlockType.ListBlock list =>
      match element.kind with
      | ElementType.ListItem =>
          MergeResult.ok
            { b with
              bbox := b.bbox.merge element.bbox
              kind := BlockType.ListBlock
                ⟨list.items ++ [element.text_block.text.trim]⟩ }
      | _ => MergeResult.bail "can't merge element in Listblock"
  | BlockType.Header header =>
      match element.kind with
      | ElementType.Header =>
          MergeResult.ok
            { b with
              bbox := b.bbox.merge element.bbox
              kind := BlockType.Header ⟨header.text ++ element.text_block.text⟩ }
      | _ => MergeResult.bail "can't merge element in Header"
  | BlockType.Footer footer =>
      match element.kind with
      | ElementType.Footer =>
          MergeResult.ok
            { b with
              bbox := b.bbox.merge element.bbox
              kind := BlockType.Footer ⟨footer.text ++ element.text_block.text⟩ }
      | _ => MergeResult.bail "can't merge element in Footer"
  | BlockType.Title _ => MergeResult.todoPanic
  | BlockType.Image _ => MergeResult.todoPanic
  | BlockType.Table => MergeResult.todoPanic

/-- Modelled from the spec (source `entities.rs` absent): the per-page entry
of a `ParsedDocument`, restricted to the fields read by `save_doc_images`
(`id`, `width`, `height`); the rendered image itself is not modelled. -/
structure PageEntry where
  id : Nat
  width : Nat
  height : Nat
deriving Repr, DecidableEq

/-- Filename written by `save_doc_images` for one image crop:
`format!("page_{}_img_{}.png", page_id, image_id)`. -/
def savedImageName (page_id image_id : Nat) : String :=
  "page_" ++ toString page_id ++ "_img_" ++ toString image_id ++ ".png"

/-- Embedded from `lib.rs`, the loop body of `save_doc_images`: walks the
blocks with a counter `image_id` starting at 0; for each `Image` block it
takes `pages_id.first().unwrap()` (panic when empty, embedded as `none`),
looks the page up by id (skipping the block when absent), asserts positive
page dimensions (panic otherwise) and writes the crop to
`page_{page_id}_img_{image_id}.png`, incrementing the counter only on a
successful save; a `Table` block hits `todo!()`.  The returned list is the
sequence of filenames written. -/
def saveDocImagesGo (pages : List PageEntry) :
    List Block → Nat → Option (List String)
  | [], _ => some []
  | b :: rest, image_id =>
    match b.kind with
    | BlockType.Image _ =>
        match b.pages_id.head? with
        | none => none
        | some page_id =>
          match pages.find? (fun p => p.id == page_id) with
          | some page =>
              if 0 < page.height ∧ 0 < page.width then
                (saveDocImagesGo pages rest (image_id + 1)).map
                  (fun ns => savedImageName page_id image_id :: ns)
              else none
          | none => saveDocImagesGo pages rest image_id
    | BlockType.Table => none
    | _ => saveDocImagesGo pages rest image_id

/-- Embedded from `lib.rs`: `save_doc_images`, returning the filenames of the
image crops it writes (`none` embeds a panic). -/
def save_doc_images (pages : List PageEntry) (blocks : List Block) :
    Option (List String) :=
  saveDocImagesGo pages blocks 0

/-- Outcome of `handle_parse_native_req` in `native.rs`, projected to the
page ids emitted on the stream.  `err` embeds the
`FerrulesError::ParseNativeError` return taken when the range end exceeds
the page count; `panicked` embeds the panic of `Vec::drain` on a range with
`start > end` (the source performs no such check). -/
inductive NativeParseOutcome where
  | pages (ids : List Nat)
  | err
  | panicked
deriving Repr, DecidableEq

/-- Embedded from `native.rs`, `handle_parse_native_req`, abstracting the
pdfium document to its page count `n`: the pages vector is
`document.pages_mut().iter().enumerate()`, so page ids are the indices
`0..n`; with `Some(range)` the source fails when `range.end > n` and
otherwise drains exactly the indices `range.start..range.end`, preserving
the enumerate ids; with `None` all pages are emitted. -/
def handle_parse_native_req (n : Nat) (page_range : Option (Nat × Nat)) :
    NativeParseOutcome :=
  match page_range with
  | some (s, e) =>
      if e > n then NativeParseOutcome.err
      else if s ≤ e then NativeParseOutcome.pages (List.range' s (e - s))
      else NativeParseOutcome.panicked
  | none => NativeParseOutcome.pages (List.range n)

/-- Embedded from `lib.rs`, `chunk_docs_range`: the selected pages vector,
`page_range.collect()` when a range is given, else `(0..n_pages).collect()`.
A Rust `Range` is embedded as a `(start, end)` pair collecting to
`List.range' start (end - start)`. -/
def selectedPages (n_pages : Nat) (page_range : Option (Nat × Nat)) :
    List Nat :=
  match page_range with
  | some (s, e) => List.range' s (e - s)
  | none => List.range n_pages

/-- Functional model of Rust `slice::chunks(k)` (used by
`chunk_docs_range`): successive chunks of `k` elements, the last chunk
possibly shorter; `⌈len/k⌉` chunks in total.  The source panics when
`k = 0`; theorems about `chunk_docs_range` therefore assume
`0 < n_workers`, which makes the chunk size positive. -/
def toChunks (k : Nat) (l : List Nat) : List (List Nat) :=
  (List.range ((l.length + k - 1) / k)).map (fun i => (l.drop (i * k)).take k)

/-- Embedded from `lib.rs`, `chunk_docs_range`: when there are more selected
pages than workers, chunk the selected pages into `len / n_workers`-sized
chunks and map each chunk `c` to the half-open range
`c.first().unwrap()..c.last().unwrap()` (embedded as the pair
`(c.headD 0, c.getLastD 0)`; chunks produced under the guard are nonempty,
so the `unwrap`s cannot panic); otherwise return the single range
`0..n_pages`. -/
def chunk_docs_range (n_pages n_workers : Nat)
    (page_range : Option (Nat × Nat)) : List (Nat × Nat) :=
  let pr := selectedPages n_pages page_range
  if n_workers < pr.length then
    (toChunks (pr.length / n_workers) pr).map
      (fun c => (c.headD 0, c.getLastD 0))
  else
    [(0, n_pages)]

/-- Embedded from `infer.rs`: the shared state of `InferenceFutInner`.
Result values (`anyhow::Result<SessionOutputs>`) are abstracted to `Nat`
ids, wakers to `Nat` task ids; `value` is the `UnsafeCell<Option<..>>`,
`waker` the `Mutex<Option<Waker>>`. -/
structure FutState where
  value : Option Nat
  waker : Option Nat
deriving Repr, DecidableEq

/-- Embedded from `infer.rs`: an `InferenceFut`, the inner state together
with the `did_receive` flag. -/
structure Fut where
  st : FutState
  did_receive : Bool
deriving Repr, DecidableEq

/-- Result of one `Future::poll` call. -/
inductive PollRes where
  | ready (v : Nat)
  | pending
deriving Repr, DecidableEq

/-- Embedded from `infer.rs`, `Future for InferenceFut::poll`: `try_take`
removes and returns the value when present (setting `did_receive`); when no
value is present the current waker is stored via `set_waker(Some(..))` and
the poll returns `Pending`. -/
def pollFut (f : Fut) (w : Nat) : PollRes × Fut :=
  match f.st.value with
  | some v => (PollRes.ready v, ⟨⟨none, f.st.waker⟩, true⟩)
  | none => (PollRes.pending, ⟨⟨none, some w⟩, f.did_receive⟩)

/-- Embedded from `infer.rs`, `async_callback` acting on the inner state:
`emplace_value` stores the result, then `wake` takes the stored waker (if
any) and wakes it.  The returned list is the sequence of task ids woken by
this call. -/
def callbackFire (s : FutState) (v : Nat) : FutState × List Nat :=
  (⟨some v, none⟩, s.waker.toList)

/-- Embedded from `infer.rs`, `Drop for InferenceFut`: when the future did
not receive its value, `set_waker(None)` detaches the waker; the inner state
survives (the callback may still fire). -/
def dropFut (f : Fut) : FutState :=
  if f.did_receive then f.st else ⟨f.st.value, none⟩

/-- Outcome of the final send in `handle_request` (`layout/mod.rs`).
`discarded` is the behavior the spec describes for a closed reply channel (a
send error silently swallowed); the source never produces it — its
`.expect("can't send parsed result over oneshot chan")` panics instead. -/
inductive SendOutcome where
  | sent
  | discarded
  | panicked
deriving Repr, DecidableEq

/-- Observable effects of one `handle_request` task in `layout/mod.rs`,
given whether the oneshot receiver is still open when the response is sent:
the inference has already been awaited to completion and the semaphore
permit dropped before the send, so both happen unconditionally; the send
itself is `response_tx.send(..).expect(..)`, which panics when the receiver
was dropped (tokio's `oneshot::Sender::send` returns `Err` then). -/
def handle_request (receiver_open : Bool) : Bool × Bool × SendOutcome :=
  (true, true, if receiver_open then SendOutcome.sent else SendOutcome.panicked)

/-- Configuration of the layout worker pool (`layout/mod.rs`): `n_parser`
spawned workers, each owning its own `Semaphore::new(intra_threads)`
(created inside `start_layout_parser`, hence one semaphore per worker). -/
structure PoolConfig where
  n_workers : Nat
  intra : Nat
deriving Repr, DecidableEq

/-- State of the worker pool: per-worker available permits and per-worker
inferences currently in flight (holding a permit between `s.acquire()` and
`drop(_permit)` in `handle_request`). -/
structure PoolState where
  avail : List Nat
  inflight : List Nat
deriving Repr, DecidableEq

/-- Initial pool state: every worker's semaphore is full, nothing in
flight. -/
def initPool (cfg : PoolConfig) : PoolState :=
  ⟨List.replicate cfg.n_workers cfg.intra, List.replicate cfg.n_workers 0⟩

/-- Total number of layout inferences in flight across the whole pool. -/
def totalInflight (s : PoolState) : Nat :=
  s.inflight.sum

/-- Embedded from `layout/mod.rs`: the permit discipline of
`start_layout_parser`/`handle_request`.  `acquire i` is worker `i`'s spawned
`handle_request` taking one permit from worker `i`'s own semaphore before
`parse_layout_async`; `release i` is the `drop(_permit)` after the inference
completes.  Each worker's semaphore is independent of the others. -/
inductive PoolStep (cfg : PoolConfig) : PoolState → PoolState → Prop where
  | acquire (s : PoolState) (i : Nat) (hi : i < cfg.n_workers)
      (h : 0 < s.avail.getD i 0) :
      PoolStep cfg s
        ⟨s.avail.set i (s.avail.getD i 0 - 1),
         s.inflight.set i (s.inflight.getD i 0 + 1)⟩
  | release (s : PoolState) (i : Nat) (hi : i < cfg.n_workers)
      (h : 0 < s.inflight.getD i 0) :
      PoolStep cfg s
        ⟨s.avail.set i (s.avail.getD i 0 + 1),
         s.inflight.set i (s.inflight.getD i 0 - 1)⟩

/-- Reachability for the worker-pool transition system. -/
def PoolReachable (cfg : PoolConfig) : PoolState → PoolState → Prop :=
  Relation.ReflTransGen (PoolStep cfg)

/-- Accounting for one buffer-pool run: the pool contents (tensor ids, the
`Mutex<Vec<Tensor>>` store) and the running counts of `BufferPool::get` and
`BufferPool::put` calls. -/
structure RunLedger where
  pool : List Nat
  gets : Nat
  puts : Nat
deriving Repr, DecidableEq

/-- Embedded from `infer.rs`, `BufferPool::put`: push the tensor back onto
the store. -/
def BufferPool.put (store : List Nat) (b : Nat) : List Nat :=
  store ++ [b]

/-- Embedded from `infer.rs`, `BufferPool::get`: pop a tensor from the end
of the store; `none` embeds the blocking condition-variable wait taken when
the store is empty. -/
def BufferPool.get (store : List Nat) : Option (Nat × List Nat) :=
  match store.getLast? with
  | some t => some (t, store.dropLast)
  | none => none

/-- Modelled from the spec (the submission path lives in `layout/model.rs`,
absent from the sources): a submission acquires one input tensor from the
buffer pool via `BufferPool::get` before invoking the asynchronous run. -/
def submitAcquire (L : RunLedger) : Option (Nat × RunLedger) :=
  match BufferPool.get L.pool with
  | some (t, pool') => some (t, ⟨pool', L.gets + 1, L.puts⟩)
  | none => none

/-- Embedded from `infer.rs`, `async_callback`: the completion callback
reconstructs the `AsyncInferenceContext` (which holds the acquired input
tensors and an `Arc` to the buffer pool), stores the result, wakes the
future — and then simply drops the context.  No `BufferPool::put` call
occurs anywhere in the callback, so the pool contents and both counters are
unchanged; the tensor `t` held by the context is freed, not returned. -/
def callbackRelease (L : RunLedger) (_t : Nat) : RunLedger :=
  L

/-- Invariant of the worker-pool transition system: per-worker permit
accounting (each worker's available permits plus its in-flight inferences
equal its own semaphore's capacity `intra`). -/
def poolInv (cfg : PoolConfig) (s : PoolState) : Prop :=
  s.avail.length = cfg.n_workers ∧ s.inflight.length = cfg.n_workers ∧
    ∀ i < cfg.n_workers, s.avail.getD i 0 + s.inflight.getD i 0 = cfg.intra

/-- Item on the native result stream received by `parse_doc_pages`
(`document.rs`): a `ParseNativePageResult` abstracted to its `page_id`, or
an inline per-page `Err`. -/
inductive StreamItem where
  | ok (page_id : Nat)
  | err
deriving Repr, DecidableEq

/-- Embedded from `document.rs`, the drain loop of `parse_doc_pages`: each
`Ok` result spawns a fusion task for its page; the `Err(_)` arm is
`todo!()`, a panic (embedded as `none`). -/
def spawnPhase : List StreamItem → Option (List Nat)
  | [] => some []
  | StreamItem.ok page_id :: rest => (spawnPhase rest).map (page_id :: ·)
  | StreamItem.err :: _ => none

/-- Insertion of a page id into a sorted list; `sortByPageId` models the
`parsed_pages.sort_by(|p1, p2| p1.id.cmp(&p2.id))` at the end of
`parse_doc_pages` (pages are abstracted to their ids). -/
def insertSorted (x : Nat) : List Nat → List Nat
  | [] => [x]
  | y :: ys => if x ≤ y then x :: y :: ys else y :: insertSorted x ys

/-- Sort of the collected pages by page id. -/
def sortByPageId (l : List Nat) : List Nat :=
  l.foldr insertSorted []

/-- Embedded from `document.rs`, `parse_doc_pages`: drain the native stream
(spawning a fusion task per `Ok` page, panicking on a stream `Err`), then
join the fusion tasks, keeping each successful page and logging-and-dropping
each failed one (`Ok(Err(e))` and join errors are only logged), and finally
sort the collected pages by id.  `fusionOk page_id` tells whether the fusion
task for that page succeeded. -/
def parse_doc_pages (stream : List StreamItem) (fusionOk : Nat → Bool) :
    Option (List Nat) :=
  (spawnPhase stream).map (fun ids => sortByPageId (ids.filter fusionOk))

/-- Helper: the block kinds whose `Block::merge` arm is a kind test (the
four mergeable kinds), paired with the element kind the arm accepts.  `true`
exactly when the source arm reaches its `Ok(())` branch. -/
def BlockType.mergeCompatible : BlockType → ElementType → Bool
  | BlockType.TextBlock _, ElementType.Text => true
  | BlockType.ListBlock _, ElementType.ListItem => true
  | BlockType.Header _, ElementType.Header => true
  | BlockType.Footer _, ElementType.Footer => true
  | _, _ => false

/-- Helper: the block kinds whose `Block::merge` arm is a bare `todo!()`. -/
def BlockType.isTodoArm : BlockType → Bool
  | BlockType.Title _ => true
  | BlockType.Image _ => true
  | BlockType.Table => true
  | _ => false

end Ferrules

namespace Ferrules

/-- Helper: every filename produced by `saveDocImagesGo` has the shape
`page_{p}_img_{k}.png`. -/
theorem saveDocImagesGo_shape (pages : List PageEntry) :
    ∀ (blocks : List Block) (k : Nat) (ns : List String),
      saveDocImagesGo pages blocks k = some ns →
      ∀ n ∈ ns, ∃ p j, n = savedImageName p j := by
  intro blocks
  induction blocks with
  | nil =>
      intro k ns h n hn
      simp [saveDocImagesGo] at h
      subst h
      simp at hn
  | cons b rest ih =>
      intro k ns h n hn
      unfold saveDocImagesGo at h
      split at h
      · split at h
        · cases h
        · split at h
          · split at h
            · rcases hrec : saveDocImagesGo pages rest (k + 1) with _ | ns' <;>
                rw [hrec] at h
              · cases h
              · simp only [Option.map_some', Option.some.injEq] at h
                subst h
                rcases List.mem_cons.mp hn with hn | hn
                · exact ⟨_, _, hn⟩
                · exact ih (k + 1) ns' hrec n hn
            · cases h
          · exact ih k ns h n hn
      · cases h
      · exact ih k ns h n hn

/-- Helper: a saved crop filename (`page_…`) is never the block's derived
path (`img_…`). -/
theorem savedImageName_ne_path (p j : Nat) (b : ImageBlock) :
    savedImageName p j ≠ b.path := by
  intro h
  have hd := congrArg String.data h
  simp [savedImageName, ImageBlock.path, String.data_append] at hd

/-- C9 counterexample: for a document with one page (id 0, 100×100) and one
`Image` block whose `ImageBlock` id is 0, `save_doc_images` writes exactly
the file `page_0_img_0.png`; the path `img_0.png` referenced by the block is
not among the files written. -/
theorem save_doc_images_name_cex :
    save_doc_images [{ id := 0, width := 100, height := 100 }]
        [{ id := 0, kind := BlockType.Image ⟨0, none⟩, pages_id := [0],
           bbox := ⟨10, 10, 60, 60⟩ }] =
      some ["page_0_img_0.png"]
    ∧ ImageBlock.path ⟨0, none⟩ = "img_0.png"
    ∧ "img_0.png" ∉ ["page_0_img_0.png"] := by
  refine ⟨by decide, by decide, by decide⟩

/-- C9 (amended): the path referenced by an `Image` block is
`img_{id}.png`, derived from the inner `ImageBlock` id, but `save_doc_images`
writes every crop to a file named `page_{page_id}_img_{k}.png` (with `k` the
zero-based count of previously written crops), so the referenced path is
never among the files written. -/
theorem save_doc_images_path_mismatch
    (pages : List PageEntry) (blocks : List Block) (ns : List String)
    (h : save_doc_images pages blocks = some ns) :
    (∀ ib : ImageBlock, ib.path = "img_" ++ toString ib.id ++ ".png")
    ∧ (∀ n ∈ ns, ∃ p j, n = savedImageName p j)
    ∧ ∀ ib : ImageBlock, ib.path ∉ ns := by
  refine ⟨fun ib => rfl, saveDocImagesGo_shape pages blocks 0 ns h, ?_⟩
  intro ib hmem
  rcases saveDocImagesGo_shape pages blocks 0 ns h _ hmem with ⟨p, j, hn⟩
  exact savedImageName_ne_path p j ib hn.symm

/-- Witness for `save_doc_images_path_mismatch` at the single-image
document. -/
theorem save_doc_images_path_mismatch_witness :
    ImageBlock.path ⟨0, none⟩ ∉ ["page_0_img_0.png"] :=
  (save_doc_images_path_mismatch
    [{ id := 0, width := 100, height := 100 }]
    [{ id := 0, kind := BlockType.Image ⟨0, none⟩, pages_id := [0],
       bbox := ⟨10, 10, 60, 60⟩ }]
    ["page_0_img_0.png"] (by decide)).2.2 ⟨0, none⟩

/-- C1: `Block::merge` never records the merged element's `page_id`: the
`// add page_id` comment in the source is followed by no code, so merging a
`Text` element from page 1 into a `Text` block begun on page 0 leaves
`pages_id = [0]`, not the `[0, 1]` the claim requires.  First conjunct:
`pages_id` is unchanged by every successful merge; second conjunct: the
concrete two-page continuation instance. -/
theorem block_merge_omits_page_id :
    (∀ (b : Block) (e : Element) (r : Block),
      Block.merge b e = MergeResult.ok r → r.pages_id = b.pages_id)
    ∧ Block.merge
        { id := 0, kind := BlockType.TextBlock ⟨"start"⟩, pages_id := [0],
          bbox := ⟨0, 600, 500, 700⟩ }
        { id := 1, page_id := 1, kind := ElementType.Text,
          bbox := ⟨0, 0, 500, 100⟩, text_block := ⟨"continuation"⟩ } =
      MergeResult.ok
        { id := 0, kind := BlockType.TextBlock ⟨"start\ncontinuation"⟩,
          pages_id := [0], bbox := ⟨0, 0, 500, 700⟩ } := by
  constructor
  · intro b e r h
    cases b with
    | mk id kind pages_id bbox =>
      cases kind <;> cases he : e.kind <;>
        simp [Block.merge, he] at h <;> simp [← h]
  · decide

/-- Witness for the universally quantified conjunct of
`block_merge_omits_page_id`, applied at the concrete two-page instance. -/
theorem block_merge_omits_page_id_witness :
    ({ id := 0, kind := BlockType.TextBlock ⟨"start\ncontinuation"⟩,
       pages_id := [0], bbox := ⟨0, 0, 500, 700⟩ } : Block).pages_id = [0] :=
  block_merge_omits_page_id.1
    { id := 0, kind := BlockType.TextBlock ⟨"start"⟩, pages_id := [0],
      bbox := ⟨0, 600, 500, 700⟩ }
    { id := 1, page_id := 1, kind := ElementType.Text,
      bbox := ⟨0, 0, 500, 100⟩, text_block := ⟨"continuation"⟩ }
    _ (by decide)

/-- C8 counterexample: a merge attempt into a `Title` block does not surface
a `BlockMergeError{block_id, kind, element}` — the source arm is `todo!()`,
a panic; and a kind mismatch on a `Text` block bails with the plain message
string `"can't merge element in textblock"`, which carries neither
`block_id` nor the offending element. -/
theorem block_merge_no_structured_error_cex :
    Block.merge
        { id := 3, kind := BlockType.Title ⟨1, "Heading"⟩, pages_id := [0],
          bbox := ⟨0, 0, 10, 10⟩ }
        { id := 7, page_id := 0, kind := ElementType.Text,
          bbox := ⟨0, 0, 1, 1⟩, text_block := ⟨"x"⟩ } =
      MergeResult.todoPanic
    ∧ Block.merge
        { id := 4, kind := BlockType.TextBlock ⟨"body"⟩, pages_id := [0],
          bbox := ⟨0, 0, 10, 10⟩ }
        { id := 8, page_id := 0, kind := ElementType.Title,
          bbox := ⟨0, 0, 1, 1⟩, text_block := ⟨"T"⟩ } =
      MergeResult.bail "can't merge element in textblock" := by
  exact ⟨by decide, by decide⟩

/-- C8 (amended): a merge whose kind invariant is violated never succeeds
and never produces a structured `BlockMergeError`: on the four mergeable
block kinds it bails with a fixed message string naming only the block kind,
and on `Title`, `Image` and `Table` blocks the merge arm is `todo!()` and
panics unconditionally (in particular a `Title` element never merges into
any block). -/
theorem block_merge_failure_shape (b : Block) (e : Element) :
    (BlockType.isTodoArm b.kind = true →
      Block.merge b e = MergeResult.todoPanic)
    ∧ (BlockType.mergeCompatible b.kind e.kind = false →
        ((∃ msg, Block.merge b e = MergeResult.bail msg)
          ∨ Block.merge b e = MergeResult.todoPanic)
        ∧ ∀ r, Block.merge b e ≠ MergeResult.ok r) := by
  cases b with
  | mk id kind pages_id bbox =>
    cases kind <;> cases he : e.kind <;>
      simp [Block.merge, BlockType.isTodoArm, BlockType.mergeCompatible, he]

/-- Witness for `block_merge_failure_shape`: at a concrete `Title` block the
merge panics, and at a concrete kind-mismatched `Text` block it does not
succeed. -/
theorem block_merge_failure_shape_witness :
    Block.merge
        { id := 3, kind := BlockType.Title ⟨1, "Heading"⟩, pages_id := [0],
          bbox := ⟨0, 0, 10, 10⟩ }
        { id := 7, page_id := 0, kind := ElementType.Text,
          bbox := ⟨0, 0, 1, 1⟩, text_block := ⟨"x"⟩ } =
      MergeResult.todoPanic
    ∧ ∀ r, Block.merge
        { id := 4, kind := BlockType.TextBlock ⟨"body"⟩, pages_id := [0],
          bbox := ⟨0, 0, 10, 10⟩ }
        { id := 8, page_id := 0, kind := ElementType.Title,
          bbox := ⟨0, 0, 1, 1⟩, text_block := ⟨"T"⟩ } ≠
      MergeResult.ok r :=
  ⟨(block_merge_failure_shape
      { id := 3, kind := BlockType.Title ⟨1, "Heading"⟩, pages_id := [0],
        bbox := ⟨0, 0, 10, 10⟩ }
      { id := 7, page_id := 0, kind := ElementType.Text,
        bbox := ⟨0, 0, 1, 1⟩, text_block := ⟨"x"⟩ }).1 (by decide),
   ((block_merge_failure_shape
      { id := 4, kind := BlockType.TextBlock ⟨"body"⟩, pages_id := [0],
        bbox := ⟨0, 0, 10, 10⟩ }
      { id := 8, page_id := 0, kind := ElementType.Title,
        bbox := ⟨0, 0, 1, 1⟩, text_block := ⟨"T"⟩ }).2 (by decide)).2⟩

/-- C5 counterexample: a native parse request on a 10-page document with
`page_range = 3..7` emits exactly the zero-indexed pages `[3, 4, 5, 6]`
(`Vec::drain(3..7)` on the enumerate indices), not the `{2, 3, 4, 5, 6}` the
claim expects. -/
theorem native_page_range_cex :
    handle_parse_native_req 10 (some (3, 7)) =
      NativeParseOutcome.pages [3, 4, 5, 6]
    ∧ ([3, 4, 5, 6] : List Nat) ≠ [2, 3, 4, 5, 6] :=
  ⟨by decide, by decide⟩

/-- C5 (amended): for a request whose range satisfies `start ≤ end`, the
request fails if and only if the range end exceeds the page count, and
otherwise the emitted pages are exactly the zero-indexed pages
`start, …, end − 1` of the source document, ids preserved; for a 10-page
document with `page_range = 3..7` that is `{3, 4, 5, 6}`. -/
theorem native_page_range_amended (n s e : Nat) (hse : s ≤ e) :
    (handle_parse_native_req n (some (s, e)) = NativeParseOutcome.err ↔ n < e)
    ∧ (e ≤ n →
        handle_parse_native_req n (some (s, e)) =
          NativeParseOutcome.pages (List.range' s (e - s))
        ∧ ∀ p : Nat, p ∈ List.range' s (e - s) ↔ s ≤ p ∧ p < e) := by
  constructor
  · simp only [handle_parse_native_req]
    by_cases h : e > n
    · simp [h]
    · rw [if_neg h, if_pos hse]
      simp
      omega
  · intro he
    constructor
    · simp only [handle_parse_native_req]
      rw [if_neg (by omega), if_pos hse]
    · intro p
      rw [List.mem_range'_1]
      omega

/-- Witness for `native_page_range_amended` at the 10-page document with
range `3..7`. -/
theorem native_page_range_amended_witness :
    handle_parse_native_req 10 (some (3, 7)) =
      NativeParseOutcome.pages (List.range' 3 (7 - 3)) :=
  ((native_page_range_amended 10 3 7 (by decide)).2 (by decide)).1

/-- Helper: every element of a chunk of `l` is an element of `l`. -/
theorem toChunks_mem_mem (k : Nat) (l : List Nat) (c : List Nat)
    (hc : c ∈ toChunks k l) : ∀ x ∈ c, x ∈ l := by
  rcases List.mem_map.mp hc with ⟨i, _, rfl⟩
  intro x hx
  exact List.mem_of_mem_drop (List.mem_of_mem_take hx)

/-- Helper: the default-valued last element of a nonempty list is a
member. -/
theorem getLastD_cons_mem (a : Nat) (t : List Nat) :
    (a :: t).getLastD 0 ∈ a :: t := by
  induction t generalizing a with
  | nil => simp [List.getLastD]
  | cons b t ih =>
      simp only [List.getLastD]
      exact List.mem_cons_of_mem a (ih b)

/-- Helper: a page lying inside the half-open range `c.first()..c.last()` of
a chunk of a contiguous page list is itself a selected page. -/
theorem chunk_ranges_subset (k s len : Nat) (c : List Nat)
    (hc : c ∈ toChunks k (List.range' s len)) (p : Nat)
    (h1 : c.headD 0 ≤ p) (h2 : p < c.getLastD 0) :
    p ∈ List.range' s len := by
  cases c with
  | nil => exact absurd h2 (by simp [List.getLastD])
  | cons a t =>
      have ha : a ∈ List.range' s len :=
        toChunks_mem_mem k _ _ hc a (List.mem_cons_self a t)
      have hl : (a :: t).getLastD 0 ∈ List.range' s len :=
        toChunks_mem_mem k _ _ hc _ (getLastD_cons_mem a t)
      have hh : (a :: t).headD 0 = a := rfl
      rw [hh] at h1
      rw [List.mem_range'_1] at ha hl ⊢
      omega

/-- Helper: the greatest selected page lies in none of the half-open chunk
ranges. -/
theorem chunk_ranges_miss_last (k s len : Nat) (c : List Nat)
    (hc : c ∈ toChunks k (List.range' s len)) :
    ¬(c.headD 0 ≤ s + len - 1 ∧ s + len - 1 < c.getLastD 0) := by
  rintro ⟨h1, h2⟩
  cases c with
  | nil => exact absurd h2 (by simp [List.getLastD])
  | cons a t =>
      have hl := toChunks_mem_mem k _ _ hc _ (getLastD_cons_mem a t)
      rw [List.mem_range'_1] at hl
      omega

/-- C10: with more selected pages than workers, `chunk_docs_range` maps each
chunk `c` of the selected pages to the half-open range
`c.first()..c.last()`, which excludes the chunk's own last page; hence the
union of the returned ranges covers only selected pages and misses at least
one of them (the greatest selected page), and concretely for
`n_pages = 10`, `n_workers = 3` and no explicit range the result is
`[0..2, 3..5, 6..8, 9..9]`, so pages 2, 5, 8 and 9 belong to no returned
range. -/
theorem chunk_docs_range_strict_subset (n_pages n_workers : Nat)
    (page_range : Option (Nat × Nat)) (hw : 0 < n_workers)
    (hlen : n_workers < (selectedPages n_pages page_range).length) :
    (chunk_docs_range n_pages n_workers page_range =
      (toChunks ((selectedPages n_pages page_range).length / n_workers)
          (selectedPages n_pages page_range)).map
        (fun c => (c.headD 0, c.getLastD 0)))
    ∧ (∀ r ∈ chunk_docs_range n_pages n_workers page_range, ∀ p : Nat,
        r.1 ≤ p → p < r.2 → p ∈ selectedPages n_pages page_range)
    ∧ (∃ q ∈ selectedPages n_pages page_range,
        ∀ r ∈ chunk_docs_range n_pages n_workers page_range,
          ¬(r.1 ≤ q ∧ q < r.2))
    ∧ chunk_docs_range 10 3 none = [(0, 2), (3, 5), (6, 8), (9, 9)]
    ∧ ∀ p ∈ ([2, 5, 8, 9] : List Nat),
        ∀ r ∈ chunk_docs_range 10 3 none, ¬(r.1 ≤ p ∧ p < r.2) := by
  obtain ⟨s, len, hsl⟩ :
      ∃ s len, selectedPages n_pages page_range = List.range' s len := by
    cases page_range with
    | none =>
        exact ⟨0, n_pages, by simp [selectedPages, List.range_eq_range']⟩
    | some se =>
        cases se with
        | mk s e => exact ⟨s, e - s, rfl⟩
  have hdef : chunk_docs_range n_pages n_workers page_range =
      (toChunks ((selectedPages n_pages page_range).length / n_workers)
          (selectedPages n_pages page_range)).map
        (fun c => (c.headD 0, c.getLastD 0)) := by
    simp only [chunk_docs_range]
    rw [if_pos hlen]
  have hpos : 0 < len := by
    rw [hsl, List.length_range'] at hlen
    omega
  refine ⟨hdef, ?_, ?_, by decide, by decide⟩
  · intro r hr p hp1 hp2
    rw [hdef] at hr
    rcases List.mem_map.mp hr with ⟨c, hc, rfl⟩
    rw [hsl] at hc ⊢
    exact chunk_ranges_subset _ s len c hc p hp1 hp2
  · refine ⟨s + len - 1, ?_, ?_⟩
    · rw [hsl, List.mem_range'_1]
      omega
    · intro r hr
      rw [hdef] at hr
      rcases List.mem_map.mp hr with ⟨c, hc, rfl⟩
      rw [hsl] at hc
      exact chunk_ranges_miss_last _ s len c hc

/-- Witness for `chunk_docs_range_strict_subset` at `n_pages = 10`,
`n_workers = 3`, no explicit range. -/
theorem chunk_docs_range_strict_subset_witness :
    chunk_docs_range 10 3 none = [(0, 2), (3, 5), (6, 8), (9, 9)] :=
  (chunk_docs_range_strict_subset 10 3 none (by decide)
    (by decide)).2.2.2.1

/-- C7: the inference-future state machine.  (1) A poll finding no value
stores the current waker and returns `Pending`; (2) the completion callback
stores the result, wakes exactly the stored waker (at most one task) and
clears it, so no second wake can occur; (3) dropping the future while
pending detaches the waker, so a completion arriving after the drop wakes no
task while still storing its result harmlessly. -/
theorem inference_fut_state_machine :
    (∀ (f : Fut) (w : Nat), f.st.value = none →
        pollFut f w = (PollRes.pending, ⟨⟨none, some w⟩, f.did_receive⟩))
    ∧ (∀ (s : FutState) (v : Nat),
        (callbackFire s v).1.value = some v
        ∧ (callbackFire s v).2 = s.waker.toList
        ∧ (callbackFire s v).2.length ≤ 1
        ∧ (callbackFire s v).1.waker = none)
    ∧ (∀ (f : Fut) (v : Nat), f.did_receive = false →
        (callbackFire (dropFut f) v).2 = []
        ∧ (callbackFire (dropFut f) v).1.value = some v) := by
  refine ⟨?_, ?_, ?_⟩
  · intro f w h
    cases f with
    | mk st d =>
        cases st with
        | mk val wk =>
            simp only at h
            subst h
            rfl
  · intro s v
    refine ⟨rfl, rfl, ?_, rfl⟩
    cases hw : s.waker <;> simp [callbackFire, hw]
  · intro f v h
    simp [dropFut, h, callbackFire]

/-- Witness for `inference_fut_state_machine` at a concrete pending future
with a stored waker. -/
theorem inference_fut_state_machine_witness :
    pollFut ⟨⟨none, some 5⟩, false⟩ 7 =
      (PollRes.pending, ⟨⟨none, some 7⟩, false⟩)
    ∧ (callbackFire (dropFut ⟨⟨none, some 5⟩, false⟩) 3).2 = [] :=
  ⟨inference_fut_state_machine.1 ⟨⟨none, some 5⟩, false⟩ 7 rfl,
   (inference_fut_state_machine.2.2 ⟨⟨none, some 5⟩, false⟩ 3 rfl).1⟩

/-- C2 counterexample: with the oneshot receiver dropped before the
response, `handle_request` does not silently discard the response — the
`.expect` on the failed send panics.  The inference still completed and the
permit was still released (the first two components), but the outcome is
`panicked`, not the `discarded` the claim describes. -/
theorem handle_request_closed_channel_cex :
    handle_request false = (true, true, SendOutcome.panicked)
    ∧ SendOutcome.panicked ≠ SendOutcome.discarded :=
  ⟨rfl, by decide⟩

/-- C2 (amended): for every reply-channel state the inference runs to
completion and its semaphore permit is released; with the receiver open the
response is sent, and with the receiver dropped the worker task panics at
the send — the closed-channel response is never silently discarded. -/
theorem handle_request_send_behavior :
    (∀ b : Bool, (handle_request b).1 = true ∧ (handle_request b).2.1 = true)
    ∧ (handle_request true).2.2 = SendOutcome.sent
    ∧ (handle_request false).2.2 = SendOutcome.panicked
    ∧ ∀ b : Bool, (handle_request b).2.2 ≠ SendOutcome.discarded := by
  decide

/-- Helper: the permit invariant holds initially. -/
theorem poolInv_init (cfg : PoolConfig) : poolInv cfg (initPool cfg) := by
  refine ⟨List.length_replicate _ _, List.length_replicate _ _, ?_⟩
  intro i hi
  have hz : ∀ v : Nat, (List.replicate cfg.n_workers v).getD i 0 = v := by
    intro v
    rw [List.getD_eq_getElem?_getD, List.getElem?_replicate, if_pos hi]
    rfl
  simp only [initPool]
  rw [hz, hz]
  omega


/-- Helper: the permit invariant is preserved by every pool step. -/
theorem poolInv_step (cfg : PoolConfig) (s s' : PoolState)
    (hstep : PoolStep cfg s s') (hinv : poolInv cfg s) : poolInv cfg s' := by
  obtain ⟨hla, hli, hsum⟩ := hinv
  cases hstep with
  | acquire i hi h =>
      refine ⟨by simp [hla], by simp [hli], ?_⟩
      intro j hj
      dsimp only
      by_cases hij : i = j
      · subst hij
        have h1 : (s.avail.set i (s.avail.getD i 0 - 1)).getD i 0 =
            s.avail.getD i 0 - 1 := by
          rw [List.getD_eq_getElem?_getD, List.getElem?_set_self (by omega)]
          rfl
        have h2 : (s.inflight.set i (s.inflight.getD i 0 + 1)).getD i 0 =
            s.inflight.getD i 0 + 1 := by
          rw [List.getD_eq_getElem?_getD, List.getElem?_set_self (by omega)]
          rfl
        rw [h1, h2]
        have := hsum i hi
        omega
      · have h1 : (s.avail.set i (s.avail.getD i 0 - 1)).getD j 0 =
            s.avail.getD j 0 := by
          rw [List.getD_eq_getElem?_getD, List.getElem?_set_ne hij,
            ← List.getD_eq_getElem?_getD]
        have h2 : (s.inflight.set i (s.inflight.getD i 0 + 1)).getD j 0 =
            s.inflight.getD j 0 := by
          rw [List.getD_eq_getElem?_getD, List.getElem?_set_ne hij,
            ← List.getD_eq_getElem?_getD]
        rw [h1, h2]
        exact hsum j hj
  | release i hi h =>
      refine ⟨by simp [hla], by simp [hli], ?_⟩
      intro j hj
      dsimp only
      by_cases hij : i = j
      · subst hij
        have h1 : (s.avail.set i (s.avail.getD i 0 + 1)).getD i 0 =
            s.avail.getD i 0 + 1 := by
          rw [List.getD_eq_getElem?_getD, List.getElem?_set_self (by omega)]
          rfl
        have h2 : (s.inflight.set i (s.inflight.getD i 0 - 1)).getD i 0 =
            s.inflight.getD i 0 - 1 := by
          rw [List.getD_eq_getElem?_getD, List.getElem?_set_self (by omega)]
          rfl
        rw [h1, h2]
        have := hsum i hi
        omega
      · have h1 : (s.avail.set i (s.avail.getD i 0 + 1)).getD j 0 =
            s.avail.getD j 0 := by
          rw [List.getD_eq_getElem?_getD, List.getElem?_set_ne hij,
            ← List.getD_eq_getElem?_getD]
        have h2 : (s.inflight.set i (s.inflight.getD i 0 - 1)).getD j 0 =
            s.inflight.getD j 0 := by
          rw [List.getD_eq_getElem?_getD, List.getElem?_set_ne hij,
            ← List.getD_eq_getElem?_getD]
        rw [h1, h2]
        exact hsum j hj

/-- Helper: the permit invariant holds in every reachable pool state. -/
theorem poolInv_reachable (cfg : PoolConfig) (s : PoolState)
    (h : PoolReachable cfg (initPool cfg) s) : poolInv cfg s := by
  induction h with
  | refl => exact poolInv_init cfg
  | tail _ hstep ih => exact poolInv_step cfg _ _ hstep ih

/-- C6 counterexample: with two workers and `intra_threads = 1`, the state
in which both workers hold an inference in flight is reachable (each worker
owns its own `Semaphore::new(intra_threads)`), so the pool-wide number of
in-flight inferences reaches 2, exceeding the intra-op thread count 1. -/
theorem pool_exceeds_intra_cex :
    PoolReachable ⟨2, 1⟩ (initPool ⟨2, 1⟩) ⟨[0, 0], [1, 1]⟩
    ∧ totalInflight ⟨[0, 0], [1, 1]⟩ = 2
    ∧ 2 > (1 : Nat) := by
  refine ⟨?_, rfl, by decide⟩
  have s1 : PoolStep ⟨2, 1⟩ ⟨[1, 1], [0, 0]⟩ ⟨[0, 1], [1, 0]⟩ :=
    PoolStep.acquire ⟨[1, 1], [0, 0]⟩ 0 (by decide) (by decide)
  have s2 : PoolStep ⟨2, 1⟩ ⟨[0, 1], [1, 0]⟩ ⟨[0, 0], [1, 1]⟩ :=
    PoolStep.acquire ⟨[0, 1], [1, 0]⟩ 1 (by decide) (by decide)
  exact Relation.ReflTransGen.head s1
    (Relation.ReflTransGen.head s2 Relation.ReflTransGen.refl)

/-- C6 (amended): each worker's own semaphore bounds that worker's in-flight
inferences by `intra_threads`, so the pool-wide bound in every reachable
state is `n_workers * intra_threads`, not `intra_threads`: the semaphore is
created per worker, hence the bound is tied to the worker count. -/
theorem pool_inflight_bound (cfg : PoolConfig) (s : PoolState)
    (h : PoolReachable cfg (initPool cfg) s) :
    (∀ i < cfg.n_workers, s.inflight.getD i 0 ≤ cfg.intra)
    ∧ totalInflight s ≤ cfg.n_workers * cfg.intra := by
  obtain ⟨hla, hli, hsum⟩ := poolInv_reachable cfg s h
  have hbound : ∀ i < cfg.n_workers, s.inflight.getD i 0 ≤ cfg.intra := by
    intro i hi
    have := hsum i hi
    omega
  refine ⟨hbound, ?_⟩
  have hmem : ∀ x ∈ s.inflight, x ≤ cfg.intra := by
    intro x hx
    rcases List.mem_iff_getElem.mp hx with ⟨i, hilen, rfl⟩
    have hgd : s.inflight.getD i 0 = s.inflight[i] := by
      rw [List.getD_eq_getElem?_getD, List.getElem?_eq_getElem hilen]
      rfl
    rw [← hgd]
    exact hbound i (by omega)
  have := List.sum_le_card_nsmul s.inflight cfg.intra hmem
  simp only [smul_eq_mul] at this
  calc totalInflight s = s.inflight.sum := rfl
    _ ≤ s.inflight.length * cfg.intra := this
    _ = cfg.n_workers * cfg.intra := by rw [hli]

/-- Witness for `pool_inflight_bound` at the initial two-worker pool. -/
theorem pool_inflight_bound_witness :
    totalInflight (initPool ⟨2, 1⟩) ≤ 2 * 1 :=
  (pool_inflight_bound ⟨2, 1⟩ (initPool ⟨2, 1⟩)
    Relation.ReflTransGen.refl).2

/-- C3: `async_callback` never returns the acquired input tensor to the
buffer pool — the context holding the tensor and the pool handle is simply
dropped, so `callbackRelease` is the identity on the ledger.  Concretely,
one submission from a one-tensor pool ends quiesced with `gets = 1` and
`puts = 0`: the put/get counts do not balance and the pool has permanently
lost its tensor. -/
theorem buffer_pool_put_missing :
    (∀ (L : RunLedger) (t : Nat), callbackRelease L t = L)
    ∧ submitAcquire ⟨[0], 0, 0⟩ = some (0, ⟨[], 1, 0⟩)
    ∧ callbackRelease ⟨[], 1, 0⟩ 0 = ⟨[], 1, 0⟩
    ∧ (⟨[], 1, 0⟩ : RunLedger).puts ≠ (⟨[], 1, 0⟩ : RunLedger).gets :=
  ⟨fun _ _ => rfl, by decide, rfl, by decide⟩

/-- Helper: a stream consisting only of `Ok` pages is drained without
panicking, spawning exactly those pages. -/
theorem spawnPhase_ok (ids : List Nat) :
    spawnPhase (ids.map StreamItem.ok) = some ids := by
  induction ids with
  | nil => rfl
  | cons x xs ih => simp [spawnPhase, ih]

/-- C4: `parse_doc_pages` panics (the `Err(_) => todo!()` arm) as soon as
the native stream emits a per-page `Err`, even when other pages would
succeed — it does not log-and-drop stream errors.  Fusion-task failures, by
contrast, are logged and dropped: a stream of `Ok` pages never panics and
yields exactly the pages whose fusion succeeded, sorted by id. -/
theorem parse_doc_pages_stream_err :
    parse_doc_pages [StreamItem.err, StreamItem.ok 1] (fun _ => true) = none
    ∧ parse_doc_pages [StreamItem.ok 2, StreamItem.ok 0, StreamItem.ok 1]
        (fun i => decide (i ≠ 1)) = some [0, 2]
    ∧ ∀ (ids : List Nat) (fusionOk : Nat → Bool),
        parse_doc_pages (ids.map StreamItem.ok) fusionOk =
          some (sortByPageId (ids.filter fusionOk)) := by
  refine ⟨rfl, by decide, ?_⟩
  intro ids fusionOk
  simp [parse_doc_pages, spawnPhase_ok]

end Ferrules
